import Mathlib

/-!
Shallow embedding of the query service in `src/app/lib/data.ts` of the
`nextjs-dashboard` fragment.

The database is modelled as in-memory lists of rows (tables `invoices`,
`customers`, `revenue`).  Each operation of the service is a Lean function
taking the database, a fault parameter (`none` = the query executes,
`some e` = query execution raises the error message `e`, which the
operation's try/catch boundary converts to its default), and the
operation's arguments; it returns the result paired with the list of
`console.error` log lines it emitted.

SQL semantics used by the source and embedded here:
* `ILIKE '%' || q || '%'` is PostgreSQL case-insensitive pattern matching;
  the interpolated query string is NOT escaped, so `%` and `_` inside it
  act as wildcards and `\` as the escape character (`likeMatches`).
* `ORDER BY` is modelled with `List.mergeSort`; ties are resolved by the
  stable sort (SQL leaves tie order unspecified; every claim proved below
  is insensitive to the choice).
* `OFFSET` is non-negative in PostgreSQL; a negative offset raises an
  error, which the fault boundary of `fetchFilteredInvoices` catches.
* Primary-key uniqueness of `customers.id` lets `GROUP BY customers.id, …`
  be modelled as one output row per customer list entry.
-/

/-- Row of the `invoices` table: id, customer reference, amount in minor
currency units, status (`"paid"` or `"pending"`), and date (ISO text). -/
structure Invoice where
  id : String
  customer_id : String
  amount : Int
  status : String
  date : String
deriving Repr, DecidableEq

/-- Row of the `customers` table. -/
structure Customer where
  id : String
  name : String
  email : String
  image_url : String
deriving Repr, DecidableEq

/-- Row of the `revenue` table. -/
structure Revenue where
  month : String
  revenue : Int
deriving Repr, DecidableEq

/-- The relational store the queries run against. -/
structure Db where
  invoices : List Invoice
  customers : List Customer
  revenue : List Revenue
deriving Repr

/-- Result row shape of `fetchFilteredInvoices` (its SELECT list). -/
structure InvoicesTable where
  id : String
  amount : Int
  date : String
  status : String
  name : String
  email : String
  image_url : String
deriving Repr, DecidableEq

/-- Result row shape of `fetchFilteredCustomers` after currency mapping. -/
structure CustomersTableRow where
  id : String
  name : String
  email : String
  image_url : String
  total_invoices : Nat
  total_pending : String
  total_paid : String
deriving Repr, DecidableEq

/-- Result shape of `fetchCardData`. -/
structure CardData where
  numberOfInvoices : Nat
  numberOfCustomers : Nat
  totalPaidInvoices : String
  totalPendingInvoices : String
deriving Repr, DecidableEq

/-- Result shape of `fetchInvoiceById`: the stored row with `amount`
divided by 100 (JavaScript `/` is exact division, embedded in `ℚ`). -/
structure InvoiceForm where
  id : String
  customer_id : String
  amount : ℚ
  status : String
deriving Repr, DecidableEq

/-- Result row shape of `fetchLatestInvoices` after currency mapping. -/
structure LatestInvoice where
  amount : String
  name : String
  image_url : String
  email : String
  id : String
deriving Repr, DecidableEq

/-- Result row shape of `fetchCustomers` (SELECT id, name). -/
structure CustomerField where
  id : String
  name : String
deriving Repr, DecidableEq

/-- PostgreSQL `LIKE`/`ILIKE` pattern matching over character lists, with
the default escape character backslash, folded to lower case on both
sides (the `I` of `ILIKE`): `%` matches any sequence, `_` any single
character, `\c` the literal character `c`. -/
def likeMatches : List Char → List Char → Bool
  | [], s => s.isEmpty
  | '%' :: ps, s => s.tails.any (fun t => likeMatches ps t)
  | '_' :: _, [] => false
  | '_' :: ps, _ :: cs => likeMatches ps cs
  | '\\' :: _, [] => false
  | ['\\'], _ :: _ => false
  | '\\' :: p2 :: ps2, c :: cs => (c.toLower == p2.toLower) && likeMatches ps2 cs
  | _ :: _, [] => false
  | p :: ps, c :: cs => (c.toLower == p.toLower) && likeMatches ps cs

/-- The predicate `field ILIKE '%' || q || '%'` as the source builds it:
the raw query is wrapped in percent signs and handed to `ILIKE`. -/
def ilike (q s : String) : Bool :=
  likeMatches ('%' :: (q.data ++ ['%'])) s.data

/-- Modelled from the spec: the currency-formatting collaborator
`formatCurrency` lives in `app/lib/utils.ts`, which is not part of the
fragment; the spec describes it as mapping an amount in minor units to a
localized peso string, e.g. `150000 ↦ "₱1,500.00"`.  `groupDigitsAux`
inserts thousands separators into a reversed digit list. -/
def groupDigitsAux : List Char → List Char
  | c1 :: c2 :: c3 :: d :: rest => c1 :: c2 :: c3 :: ',' :: groupDigitsAux (d :: rest)
  | l => l

/-- Modelled from the spec: `formatCurrency` renders an amount of minor
currency units as a display string (`150000 ↦ "₱1,500.00"`). -/
def formatCurrency (amount : Int) : String :=
  let a := amount.natAbs
  let major := a / 100
  let cents := a % 100
  (if amount < 0 then "-" else "") ++ "₱" ++
    String.mk (groupDigitsAux (toString major).data.reverse).reverse ++
    "." ++ (if cents < 10 then "0" else "") ++ toString cents

/-- The fixed page size `ITEMS_PER_PAGE = 6` of the source. -/
def ITEMS_PER_PAGE : Nat := 6

/-- The `JOIN customers ON invoices.customer_id = customers.id` row set. -/
def joinInvoiceCustomer (db : Db) : List (Invoice × Customer) :=
  db.invoices.flatMap
    (fun i => (db.customers.filter (fun c => c.id == i.customer_id)).map (fun c => (i, c)))

/-- Comparator for `ORDER BY invoices.date DESC`. -/
def dateDesc (a b : Invoice × Customer) : Bool :=
  decide (b.1.date ≤ a.1.date)

/-- Comparator for `ORDER BY customers.name ASC`. -/
def nameAsc (a b : Customer) : Bool :=
  decide (a.name ≤ b.name)

/-- Comparator for `ORDER BY month ASC`. -/
def monthAsc (a b : Revenue) : Bool :=
  decide (a.month ≤ b.month)

/-- The WHERE clause of `fetchFilteredInvoices` (data.ts lines 100-105):
five `ILIKE` tests joined by OR. -/
def invoiceWhereFiltered (q : String) (i : Invoice) (c : Customer) : Bool :=
  ilike q c.name || ilike q c.email || ilike q (toString i.amount) ||
    ilike q i.date || ilike q i.status

/-- The WHERE clause of `fetchInvoicesPages` (data.ts lines 122-127):
five `ILIKE` tests joined by OR. -/
def invoiceWherePages (q : String) (i : Invoice) (c : Customer) : Bool :=
  ilike q c.name || ilike q c.email || ilike q (toString i.amount) ||
    ilike q i.date || ilike q i.status

/-- Joined rows passing the WHERE clause of `fetchFilteredInvoices`. -/
def filteredMatches (db : Db) (q : String) : List (Invoice × Customer) :=
  (joinInvoiceCustomer db).filter (fun rc => invoiceWhereFiltered q rc.1 rc.2)

/-- Joined rows counted by `fetchInvoicesPages`. -/
def pagesMatches (db : Db) (q : String) : List (Invoice × Customer) :=
  (joinInvoiceCustomer db).filter (fun rc => invoiceWherePages q rc.1 rc.2)

/-- The matching rows after `ORDER BY invoices.date DESC`. -/
def sortedMatches (db : Db) (q : String) : List (Invoice × Customer) :=
  (filteredMatches db q).mergeSort dateDesc

/-- SELECT list of `fetchFilteredInvoices` applied to a joined row. -/
def invoicesTableRow (rc : Invoice × Customer) : InvoicesTable :=
  ⟨rc.1.id, rc.1.amount, rc.1.date, rc.1.status, rc.2.name, rc.2.email, rc.2.image_url⟩

/-- The page slice `LIMIT 6 OFFSET (page-1)*6` of the sorted matches. -/
def pageRows (db : Db) (q : String) (page : Int) : List (Invoice × Customer) :=
  ((sortedMatches db q).drop ((page - 1) * 6).toNat).take 6

/-- Embedding of `fetchRevenue`: `SELECT * FROM revenue ORDER BY month ASC`,
with the catch returning `[]`. -/
def fetchRevenue (db : Db) (fault : Option String) : List Revenue × List String :=
  match fault with
  | some e => ([], ["Database Error (fetchRevenue): " ++ e])
  | none => (db.revenue.mergeSort monthAsc, [])

/-- SELECT list of `fetchLatestInvoices` plus its `formatCurrency` map. -/
def latestInvoiceRow (rc : Invoice × Customer) : LatestInvoice :=
  ⟨formatCurrency rc.1.amount, rc.2.name, rc.2.image_url, rc.2.email, rc.1.id⟩

/-- Embedding of `fetchLatestInvoices`: join, `ORDER BY invoices.date DESC
LIMIT 5`, amounts formatted; the catch returns `[]`. -/
def fetchLatestInvoices (db : Db) (fault : Option String) : List LatestInvoice × List String :=
  match fault with
  | some e => ([], ["Database Error (fetchLatestInvoices): " ++ e])
  | none => ((((joinInvoiceCustomer db).mergeSort dateDesc).take 5).map latestInvoiceRow, [])

/-- The aggregate `SUM(CASE WHEN status = 'paid' THEN amount ELSE 0 END)`:
SQL `SUM` over an empty table is NULL (`none`). -/
def sumPaid (db : Db) : Option Int :=
  if db.invoices.isEmpty then none
  else some ((db.invoices.map (fun i => if i.status == "paid" then i.amount else 0)).sum)

/-- The aggregate `SUM(CASE WHEN status = 'pending' THEN amount ELSE 0 END)`:
SQL `SUM` over an empty table is NULL (`none`). -/
def sumPending (db : Db) : Option Int :=
  if db.invoices.isEmpty then none
  else some ((db.invoices.map (fun i => if i.status == "pending" then i.amount else 0)).sum)

/-- Embedding of `fetchCardData`: three concurrent aggregate queries, each
`?? 0`-coalesced before formatting; the catch returns the zeroed record
with literal `"₱0"` currency strings. -/
def fetchCardData (db : Db) (fault : Option String) : CardData × List String :=
  match fault with
  | some e =>
    ({ numberOfInvoices := 0, numberOfCustomers := 0,
       totalPaidInvoices := "₱0", totalPendingInvoices := "₱0" },
     ["Database Error (fetchCardData): " ++ e])
  | none =>
    ({ numberOfInvoices := db.invoices.length,
       numberOfCustomers := db.customers.length,
       totalPaidInvoices := formatCurrency ((sumPaid db).getD 0),
       totalPendingInvoices := formatCurrency ((sumPending db).getD 0) }, [])

/-- Embedding of `fetchFilteredInvoices`: the five-field OR filter,
`ORDER BY date DESC`, `LIMIT 6 OFFSET (currentPage-1)*6`.  PostgreSQL
rejects a negative OFFSET, which the catch turns into `[]`. -/
def fetchFilteredInvoices (db : Db) (fault : Option String) (q : String) (currentPage : Int) :
    List InvoicesTable × List String :=
  match fault with
  | some e => ([], ["Database Error (fetchFilteredInvoices): " ++ e])
  | none =>
    if (currentPage - 1) * 6 < 0 then
      ([], ["Database Error (fetchFilteredInvoices): OFFSET must not be negative"])
    else ((pageRows db q currentPage).map invoicesTableRow, [])

/-- Embedding of `fetchInvoicesPages`: `Math.ceil(count / 6)` on a natural
count equals `(count + 5) / 6`; the catch returns 1. -/
def fetchInvoicesPages (db : Db) (fault : Option String) (q : String) : Nat × List String :=
  match fault with
  | some e => (1, ["Database Error (fetchInvoicesPages): " ++ e])
  | none => (((pagesMatches db q).length + (ITEMS_PER_PAGE - 1)) / ITEMS_PER_PAGE, [])

/-- Projection of a stored invoice to the edit-form shape: `amount / 100`
in exact (JavaScript number) division. -/
def invoiceFormRow (i : Invoice) : InvoiceForm :=
  ⟨i.id, i.customer_id, (i.amount : ℚ) / 100, i.status⟩

/-- Embedding of `fetchInvoiceById`: `WHERE id = $id`, `rows[0]` with
`amount / 100`, `null` when no row matches; the catch returns `null`. -/
def fetchInvoiceById (db : Db) (fault : Option String) (id : String) :
    Option InvoiceForm × List String :=
  match fault with
  | some e => (none, ["Database Error (fetchInvoiceById): " ++ e])
  | none => (((db.invoices.filter (fun i => i.id == id)).head?).map invoiceFormRow, [])

/-- Embedding of `fetchCustomers`: `SELECT id, name FROM customers ORDER BY
name ASC`; the catch returns `[]`. -/
def fetchCustomers (db : Db) (fault : Option String) : List CustomerField × List String :=
  match fault with
  | some e => ([], ["Database Error (fetchCustomers): " ++ e])
  | none => ((db.customers.mergeSort nameAsc).map (fun c => ⟨c.id, c.name⟩), [])

/-- The WHERE clause of `fetchFilteredCustomers` (data.ts lines 184-185):
`ILIKE` on name or email only. -/
def customerWhere (q : String) (c : Customer) : Bool :=
  ilike q c.name || ilike q c.email

/-- The invoices LEFT-JOINed onto a customer. -/
def invoicesOf (db : Db) (c : Customer) : List Invoice :=
  db.invoices.filter (fun i => i.customer_id == c.id)

/-- One GROUP BY group of `fetchFilteredCustomers`, after the currency
map.  With `customers.id` a primary key each customer entry forms its own
group.  `COUNT(invoices.id)` counts only non-NULL ids, so a customer with
zero invoices (one NULL-extended row) counts 0; each `SUM(CASE …)` ranges
over a non-empty group, the NULL-extended row contributing the ELSE 0, so
it is never NULL and equals the sum over the customer's invoices. -/
def customersTableRow (db : Db) (c : Customer) : CustomersTableRow :=
  { id := c.id, name := c.name, email := c.email, image_url := c.image_url,
    total_invoices := (invoicesOf db c).length,
    total_pending :=
      formatCurrency (((invoicesOf db c).map (fun i => if i.status == "pending" then i.amount else 0)).sum),
    total_paid :=
      formatCurrency (((invoicesOf db c).map (fun i => if i.status == "paid" then i.amount else 0)).sum) }

/-- Embedding of `fetchFilteredCustomers`: WHERE on name/email, LEFT JOIN
aggregates per customer, `ORDER BY name ASC`, currency-formatted; the
catch returns `[]`. -/
def fetchFilteredCustomers (db : Db) (fault : Option String) (q : String) :
    List CustomersTableRow × List String :=
  match fault with
  | some e => ([], ["Database Error (fetchFilteredCustomers): " ++ e])
  | none => (((db.customers.filter (customerWhere q)).mergeSort nameAsc).map (customersTableRow db), [])

/-- Case-insensitive prefix test, the building block of the spec's notion
of case-insensitive substring matching. -/
def startsWithCI : List Char → List Char → Bool
  | [], _ => true
  | _ :: _, [] => false
  | p :: ps, c :: cs => (c.toLower == p.toLower) && startsWithCI ps cs

/-- The spec's matching notion, written from the spec's words for
comparison with the code's `ilike`: the query occurs case-insensitively
as a (literal) substring of the field. -/
def containsCI (needle hay : List Char) : Bool :=
  match hay with
  | [] => needle.isEmpty
  | _ :: cs => startsWithCI needle hay || containsCI needle cs

/-- The spec's row-matching predicate for invoice search, written from the
spec's words: case-insensitive substring against the five fields, OR. -/
def specInvoiceMatch (q : String) (i : Invoice) (c : Customer) : Bool :=
  containsCI q.data c.name.data || containsCI q.data c.email.data ||
    containsCI q.data (toString i.amount).data || containsCI q.data i.date.data ||
    containsCI q.data i.status.data

/-- Queries free of the `ILIKE` metacharacters `%`, `_` and `\`; on these
the code's pattern match coincides with literal substring search. -/
def noWildcards (q : String) : Bool :=
  q.data.all (fun c => c ≠ '%' && c ≠ '_' && c ≠ '\\')

/-! ### Pattern-matching lemmas: `ILIKE '%q%'` versus literal substring -/

/-- Unfolding: a pattern headed by `%` matches when its tail matches some
suffix of the string. -/
theorem likeMatches_pct_unfold (ps s : List Char) :
    likeMatches ('%' :: ps) s = s.tails.any (fun t => likeMatches ps t) :=
  likeMatches.eq_2 s ps

/-- Unfolding: a pattern headed by an ordinary character rejects the
empty string. -/
theorem likeMatches_lit_nil {p : Char} (ps : List Char)
    (h1 : p ≠ '%') (h2 : p ≠ '_') (h3 : p ≠ '\\') :
    likeMatches (p :: ps) [] = false :=
  likeMatches.eq_8 p ps h1 h2 h3

/-- Unfolding: a pattern headed by an ordinary character consumes one
character, compared case-insensitively. -/
theorem likeMatches_lit_cons {p : Char} (ps : List Char) (c : Char) (cs : List Char)
    (h1 : p ≠ '%') (h2 : p ≠ '_') (h3 : p ≠ '\\') :
    likeMatches (p :: ps) (c :: cs) = ((c.toLower == p.toLower) && likeMatches ps cs) :=
  likeMatches.eq_9 p ps c cs h1 h2 (fun hp _ => h3 hp) (fun _ _ hp _ => h3 hp)

/-- The pattern consisting of a single `%` matches every string. -/
theorem likeMatches_pct (s : List Char) : likeMatches ['%'] s = true := by
  rw [likeMatches_pct_unfold, List.any_eq_true]
  exact ⟨[], (List.mem_tails [] s).mpr (List.nil_suffix), rfl⟩

/-- Matching a pattern against the empty string only succeeds for an
empty needle. -/
theorem startsWithCI_nil_right (q : List Char) : startsWithCI q [] = q.isEmpty := by
  cases q <;> rfl

/-- A wildcard-free pattern followed by `%` matches exactly the strings
that start (case-insensitively) with the pattern. -/
theorem likeMatches_lit_pct (q : List Char)
    (hq : ∀ c ∈ q, c ≠ '%' ∧ c ≠ '_' ∧ c ≠ '\\') :
    ∀ s : List Char, likeMatches (q ++ ['%']) s = startsWithCI q s := by
  induction q with
  | nil =>
    intro s
    rw [List.nil_append, likeMatches_pct]
    rfl
  | cons a q ih =>
    intro s
    obtain ⟨ha1, ha2, ha3⟩ := hq a (List.mem_cons_self a q)
    have hq' : ∀ c ∈ q, c ≠ '%' ∧ c ≠ '_' ∧ c ≠ '\\' :=
      fun c hc => hq c (List.mem_cons_of_mem a hc)
    cases s with
    | nil =>
      rw [List.cons_append, likeMatches_lit_nil _ ha1 ha2 ha3]
      rfl
    | cons c cs =>
      rw [List.cons_append, likeMatches_lit_cons _ c cs ha1 ha2 ha3, ih hq' cs]
      rfl

/-- The spec's substring test is a disjunction of prefix tests over all
suffixes. -/
theorem containsCI_eq_any_tails (q : List Char) :
    ∀ s : List Char, containsCI q s = s.tails.any (fun t => startsWithCI q t) := by
  intro s
  induction s with
  | nil => simp [containsCI, startsWithCI_nil_right]
  | cons c cs ih => simp [containsCI, ih]

/-- For a wildcard-free query `q`, the SQL pattern `%q%` matches exactly
the strings containing `q` as a case-insensitive substring. -/
theorem likeMatches_pct_lit_pct (q : List Char)
    (hq : ∀ c ∈ q, c ≠ '%' ∧ c ≠ '_' ∧ c ≠ '\\') :
    ∀ s : List Char, likeMatches ('%' :: (q ++ ['%'])) s = containsCI q s := by
  intro s
  rw [containsCI_eq_any_tails, likeMatches_pct_unfold]
  congr 1
  funext t
  exact likeMatches_lit_pct q hq t

/-- Unfolding of the `noWildcards` character test. -/
theorem noWildcards_chars {q : String} (h : noWildcards q = true) :
    ∀ c ∈ q.data, c ≠ '%' ∧ c ≠ '_' ∧ c ≠ '\\' := by
  simp only [noWildcards, List.all_eq_true] at h
  intro c hc
  have hx := h c hc
  simp only [Bool.and_eq_true, decide_eq_true_eq] at hx
  exact ⟨hx.1.1, hx.1.2, hx.2⟩

/-- On wildcard-free queries the code's `ILIKE` test is exactly the
spec's case-insensitive substring test. -/
theorem ilike_eq_containsCI {q : String} (h : noWildcards q = true) (s : String) :
    ilike q s = containsCI q.data s.data :=
  likeMatches_pct_lit_pct q.data (noWildcards_chars h) s.data

/-- The empty needle occurs in every string. -/
theorem containsCI_nil_left (hay : List Char) : containsCI [] hay = true := by
  cases hay <;> simp [containsCI, startsWithCI]

/-- The empty query matches every field value. -/
theorem ilike_empty (s : String) : ilike "" s = true := by
  rw [ilike_eq_containsCI (by decide) s]
  exact containsCI_nil_left s.data

/-! ### Pagination: slicing the sorted matches into pages of six -/

/-- Concatenating the 6-element slices `drop (p*6) |> take 6` for
`p < ⌈length/6⌉` recovers the whole list. -/
theorem flatMap_chunks6 {α : Type} : ∀ (m : Nat) (l : List α), m = (l.length + 5) / 6 →
    (List.range m).flatMap (fun p => (l.drop (p * 6)).take 6) = l := by
  intro m
  induction m with
  | zero =>
    intro l hl
    have h0 : l.length = 0 := by omega
    rw [List.length_eq_zero] at h0
    simp [h0]
  | succ m ih =>
    intro l hl
    rw [List.range_succ_eq_map, List.flatMap_cons, List.flatMap_map]
    have harg : ∀ p : Nat, ((l.drop (Nat.succ p * 6)).take 6) =
        (((l.drop 6).drop (p * 6)).take 6) := by
      intro p
      rw [List.drop_drop]
      congr 2
      omega
    simp only [harg, Nat.zero_mul, List.drop_zero]
    rw [ih (l.drop 6) (by simp only [List.length_drop]; omega)]
    exact List.take_append_drop 6 l

/-! ### Service-level helper lemmas -/

/-- The two WHERE clauses filter the same join, so the counted row list
and the fetched row list coincide. -/
theorem pagesMatches_eq_filteredMatches (db : Db) (q : String) :
    pagesMatches db q = filteredMatches db q := rfl

/-- Sorting does not change how many rows match. -/
theorem sortedMatches_length (db : Db) (q : String) :
    (sortedMatches db q).length = (pagesMatches db q).length := by
  rw [pagesMatches_eq_filteredMatches]
  exact List.length_mergeSort (filteredMatches db q)

/-- On a fault-free run the page count is `⌈matches / 6⌉ = (matches+5)/6`. -/
theorem fetchInvoicesPages_none (db : Db) (q : String) :
    (fetchInvoicesPages db none q).1 = ((pagesMatches db q).length + 5) / 6 := rfl

/-- The page numbered `k+1` slices the sorted matches at offset `k*6`. -/
theorem pageRows_natCast (db : Db) (q : String) (k : Nat) :
    pageRows db q ((k : Int) + 1) = ((sortedMatches db q).drop (k * 6)).take 6 := by
  unfold pageRows
  have h : (((k : Int) + 1 - 1) * 6).toNat = k * 6 := by omega
  rw [h]

/-- On a fault-free run, page `k+1` of `fetchFilteredInvoices` is the
projection of the corresponding 6-row slice of the sorted matches. -/
theorem fetchFilteredInvoices_page (db : Db) (q : String) (k : Nat) :
    (fetchFilteredInvoices db none q ((k : Int) + 1)).1 =
      (((sortedMatches db q).drop (k * 6)).take 6).map invoicesTableRow := by
  have hoff : ¬ (((k : Int) + 1 - 1) * 6 < 0) := by omega
  have h2 : fetchFilteredInvoices db none q ((k : Int) + 1) =
      ((pageRows db q ((k : Int) + 1)).map invoicesTableRow, []) := by
    simp only [fetchFilteredInvoices]
    rw [if_neg hoff]
  rw [h2, pageRows_natCast]

/-- Concatenating pages `1 .. pageCount` yields exactly the projected,
sorted match list. -/
theorem concat_pages_eq (db : Db) (q : String) :
    (List.range (fetchInvoicesPages db none q).1).flatMap
        (fun k => (fetchFilteredInvoices db none q ((k : Int) + 1)).1) =
      (sortedMatches db q).map invoicesTableRow := by
  have h1 : ∀ k : Nat, (fetchFilteredInvoices db none q ((k : Int) + 1)).1 =
      (((sortedMatches db q).drop (k * 6)).take 6).map invoicesTableRow :=
    fetchFilteredInvoices_page db q
  simp only [h1]
  rw [← List.map_flatMap]
  rw [flatMap_chunks6 (fetchInvoicesPages db none q).1 (sortedMatches db q)
    (by rw [sortedMatches_length, fetchInvoicesPages_none])]

/-- The date-descending comparator is transitive. -/
theorem dateDesc_trans : ∀ a b c : Invoice × Customer,
    dateDesc a b = true → dateDesc b c = true → dateDesc a c = true := by
  intro a b c hab hbc
  simp only [dateDesc, decide_eq_true_eq] at hab hbc ⊢
  exact le_trans hbc hab

/-- The date-descending comparator is total. -/
theorem dateDesc_total : ∀ a b : Invoice × Customer,
    (dateDesc a b || dateDesc b a) = true := by
  intro a b
  simp only [dateDesc, Bool.or_eq_true, decide_eq_true_eq]
  exact le_total b.1.date a.1.date

/-- The sorted match list is weakly decreasing in date. -/
theorem sortedMatches_pairwise (db : Db) (q : String) :
    List.Pairwise (fun a b : Invoice × Customer => b.1.date ≤ a.1.date)
      (sortedMatches db q) := by
  have h := List.sorted_mergeSort dateDesc_trans dateDesc_total (filteredMatches db q)
  exact h.imp (fun hab => by simpa [dateDesc] using hab)

/-! ### Sample data for the concrete witnesses -/

/-- Sample customer used by witnesses. -/
def sampleCustomer : Customer := ⟨"c1", "Alice", "alice@x.com", "/a.png"⟩

/-- Sample invoice used by witnesses; its amount is the spec's example
value 100000 minor units. -/
def sampleInvoice : Invoice := ⟨"inv1", "c1", 100000, "paid", "2024-03-01"⟩

/-- Sample pending invoice used by witnesses. -/
def samplePending : Invoice := ⟨"inv2", "c1", 2500, "pending", "2024-05-02"⟩

/-- Sample database: one customer, two invoices. -/
def sampleDb : Db := ⟨[sampleInvoice, samplePending], [sampleCustomer], []⟩

/-- Sample database with no invoices at all. -/
def emptyInvoicesDb : Db := ⟨[], [sampleCustomer], []⟩

/-! ### Claim theorems -/

/-- C1, counterexample: on an empty database (so zero rows match) and a
fault-free run, `fetchInvoicesPages` returns 0, refuting the claim that
it never returns 0 / has minimum value 1. -/
theorem C1_counterexample : (fetchInvoicesPages ⟨[], [], []⟩ none "").1 = 0 := rfl

/-- C1, amended: `fetchInvoicesPages(q)` returns exactly
`ceil(matchCount / 6)` with no minimum applied — the two inequalities pin
the result as the ceiling — so it returns 0 when no rows match; the value
1 is produced only by the fault path. -/
theorem C1_amended (db : Db) (q : String) :
    (pagesMatches db q).length ≤ 6 * (fetchInvoicesPages db none q).1 ∧
    6 * (fetchInvoicesPages db none q).1 ≤ (pagesMatches db q).length + 5 ∧
    (fetchInvoicesPages ⟨[], [], []⟩ none q).1 = 0 ∧
    (∀ e : String, (fetchInvoicesPages db (some e) q).1 = 1) := by
  refine ⟨?_, ?_, ?_, fun e => rfl⟩
  · rw [fetchInvoicesPages_none]; omega
  · rw [fetchInvoicesPages_none]; omega
  · simp [fetchInvoicesPages, pagesMatches, joinInvoiceCustomer, ITEMS_PER_PAGE]

/-- C2: `fetchInvoicesPages` and `fetchFilteredInvoices` use the identical
five-field OR WHERE predicate, and a joined row is counted by the page
count if and only if it is eligible to appear on some page
`p ∈ [1, fetchInvoicesPages q]` of the filtered fetch. -/
theorem C2_same_predicate :
    (∀ (q : String) (i : Invoice) (c : Customer),
      invoiceWherePages q i c = invoiceWhereFiltered q i c) ∧
    (∀ (db : Db) (q : String) (rc : Invoice × Customer),
      rc ∈ pagesMatches db q ↔
        ∃ p : Nat, 1 ≤ p ∧ p ≤ (fetchInvoicesPages db none q).1 ∧
          rc ∈ pageRows db q (p : Int)) := by
  constructor
  · intro q i c; rfl
  · intro db q rc
    have hchunks := flatMap_chunks6 (fetchInvoicesPages db none q).1 (sortedMatches db q)
      (by rw [sortedMatches_length, fetchInvoicesPages_none])
    constructor
    · intro h
      have hs : rc ∈ sortedMatches db q := by
        rw [sortedMatches, List.mem_mergeSort, ← pagesMatches_eq_filteredMatches]
        exact h
      rw [← hchunks, List.mem_flatMap] at hs
      obtain ⟨k, hk, hmem⟩ := hs
      refine ⟨k + 1, by omega, by have := List.mem_range.mp hk; omega, ?_⟩
      have hcast : ((k + 1 : Nat) : Int) = (k : Int) + 1 := by push_cast; ring
      rw [hcast, pageRows_natCast]
      exact hmem
    · rintro ⟨p, _hp1, _hp2, hmem⟩
      have hs : rc ∈ sortedMatches db q := by
        have h1 : rc ∈ (sortedMatches db q).drop (((p : Int) - 1) * 6).toNat :=
          List.take_subset 6 _ hmem
        exact List.drop_subset _ _ h1
      rw [sortedMatches, List.mem_mergeSort, ← pagesMatches_eq_filteredMatches] at hs
      exact hs

/-- C3, counterexample: the `%` character of the raw query acts as an
`ILIKE` wildcard, so the code's predicate accepts a row whose five fields
do not contain the query as a substring — matching is not literal
substring search for every query string. -/
theorem C3_counterexample :
    invoiceWhereFiltered "%" ⟨"inv9", "c9", 1, "paid", "2024-03-01"⟩
        ⟨"c9", "Al", "al@x.com", "/a.png"⟩ = true ∧
    specInvoiceMatch "%" ⟨"inv9", "c9", 1, "paid", "2024-03-01"⟩
        ⟨"c9", "Al", "al@x.com", "/a.png"⟩ = false := by
  decide

/-- C3, amended: the search predicate is `ILIKE '%q%'` on the five fields
(OR); for every query free of the `ILIKE` metacharacters `%`, `_`, `\`
it is exactly the claimed case-insensitive five-field substring match,
and the empty query matches every row. -/
theorem C3_amended (q : String) (i : Invoice) (c : Customer)
    (h : noWildcards q = true) :
    invoiceWhereFiltered q i c = specInvoiceMatch q i c ∧
      invoiceWhereFiltered "" i c = true := by
  constructor
  · simp only [invoiceWhereFiltered, specInvoiceMatch, ilike_eq_containsCI h]
  · simp [invoiceWhereFiltered, ilike_empty]

/-- C3 witness: the query `"pend"` is wildcard-free, so the theorem
applies; the spec's example row with status `"pending"` matches. -/
theorem C3_amended_witness :
    noWildcards "pend" = true ∧
    (invoiceWhereFiltered "pend" samplePending sampleCustomer =
        specInvoiceMatch "pend" samplePending sampleCustomer ∧
      invoiceWhereFiltered "" samplePending sampleCustomer = true) :=
  ⟨by decide, C3_amended "pend" samplePending sampleCustomer (by decide)⟩

/-- C4: concatenating `fetchFilteredInvoices(q, p)` over
`p ∈ [1, fetchInvoicesPages(q)]` is a permutation of the full projected
match list (each matching row exactly once — no duplicates, no gaps) and
is ordered by date descending. -/
theorem C4_pagination (db : Db) (q : String) :
    ((List.range (fetchInvoicesPages db none q).1).flatMap
        (fun k => (fetchFilteredInvoices db none q ((k : Int) + 1)).1)).Perm
        ((filteredMatches db q).map invoicesTableRow) ∧
    List.Pairwise (fun a b : InvoicesTable => b.date ≤ a.date)
      ((List.range (fetchInvoicesPages db none q).1).flatMap
        (fun k => (fetchFilteredInvoices db none q ((k : Int) + 1)).1)) := by
  rw [concat_pages_eq]
  constructor
  · exact (List.mergeSort_perm (filteredMatches db q) dateDesc).map invoicesTableRow
  · exact (sortedMatches_pairwise db q).map invoicesTableRow (fun a b hab => hab)

/-- C5: on a query execution fault, every operation logs its own name
together with the underlying error and returns its documented safe
default instead of propagating: empty lists for the listing operations,
the zeroed card summary, page count 1, and `none` for the lookup. -/
theorem C5_fault_defaults (db : Db) (e q id : String) (page : Int) :
    fetchRevenue db (some e) = ([], ["Database Error (fetchRevenue): " ++ e]) ∧
    fetchLatestInvoices db (some e) =
      ([], ["Database Error (fetchLatestInvoices): " ++ e]) ∧
    fetchFilteredInvoices db (some e) q page =
      ([], ["Database Error (fetchFilteredInvoices): " ++ e]) ∧
    fetchCustomers db (some e) = ([], ["Database Error (fetchCustomers): " ++ e]) ∧
    fetchFilteredCustomers db (some e) q =
      ([], ["Database Error (fetchFilteredCustomers): " ++ e]) ∧
    fetchCardData db (some e) =
      (⟨0, 0, "₱0", "₱0"⟩, ["Database Error (fetchCardData): " ++ e]) ∧
    fetchInvoicesPages db (some e) q =
      (1, ["Database Error (fetchInvoicesPages): " ++ e]) ∧
    fetchInvoiceById db (some e) id =
      (none, ["Database Error (fetchInvoiceById): " ++ e]) :=
  ⟨rfl, rfl, rfl, rfl, rfl, rfl, rfl, rfl⟩

/-- C6: a matching customer with zero invoices still appears in the
`fetchFilteredCustomers` result (LEFT JOIN semantics), with
`total_invoices = 0` and both currency aggregates formatted as zero
currency — never null, never omitted. -/
theorem C6_zero_invoice_customer (db : Db) (q : String) (c : Customer)
    (hc : c ∈ db.customers) (hm : customerWhere q c = true)
    (hz : invoicesOf db c = []) :
    ∃ row ∈ (fetchFilteredCustomers db none q).1,
      row.id = c.id ∧ row.name = c.name ∧ row.email = c.email ∧
        row.total_invoices = 0 ∧ row.total_pending = formatCurrency 0 ∧
        row.total_paid = formatCurrency 0 := by
  refine ⟨customersTableRow db c, ?_, rfl, rfl, rfl, ?_, ?_, ?_⟩
  · simp only [fetchFilteredCustomers]
    apply List.mem_map_of_mem
    rw [List.mem_mergeSort]
    exact List.mem_filter.mpr ⟨hc, hm⟩
  · simp [customersTableRow, hz]
  · simp [customersTableRow, hz]
  · simp [customersTableRow, hz]

/-- C6 witness: on a database whose invoices table is empty, the sample
customer matches the empty query and is reported with zeroed
aggregates. -/
theorem C6_zero_invoice_customer_witness :
    (sampleCustomer ∈ emptyInvoicesDb.customers ∧
      customerWhere "" sampleCustomer = true ∧
      invoicesOf emptyInvoicesDb sampleCustomer = []) ∧
    ∃ row ∈ (fetchFilteredCustomers emptyInvoicesDb none "").1,
      row.id = sampleCustomer.id ∧ row.name = sampleCustomer.name ∧
        row.email = sampleCustomer.email ∧ row.total_invoices = 0 ∧
        row.total_pending = formatCurrency 0 ∧
        row.total_paid = formatCurrency 0 :=
  ⟨⟨by decide, by decide, by decide⟩,
    C6_zero_invoice_customer emptyInvoicesDb "" sampleCustomer
      (by decide) (by decide) (by decide)⟩

/-- C7: on an empty invoices table, `fetchCardData` returns zero invoice
count and both totals formatted as zero currency (each aggregate is
null-coalesced to 0 before formatting); every field of the typed record
is a total value, never null. -/
theorem C7_cardData_empty (db : Db) (h : db.invoices = []) :
    (fetchCardData db none).1 =
      ⟨0, db.customers.length, formatCurrency 0, formatCurrency 0⟩ := by
  obtain ⟨inv, cs, rev⟩ := db
  replace h : inv = [] := h
  subst h
  rfl

/-- C7 witness: the theorem applied to the concrete empty-invoices
database. -/
theorem C7_cardData_empty_witness :
    emptyInvoicesDb.invoices = [] ∧
    (fetchCardData emptyInvoicesDb none).1 =
      ⟨0, emptyInvoicesDb.customers.length, formatCurrency 0, formatCurrency 0⟩ :=
  ⟨rfl, C7_cardData_empty emptyInvoicesDb rfl⟩

/-- C8: `fetchFilteredInvoices` does not clamp or validate the page
number; for any page outside `[1, fetchInvoicesPages q]` it returns an
empty result set rather than raising (pages below 1 hit the negative
OFFSET error, which the fault boundary converts to `[]`; pages above the
count slice past the end of the matches). -/
theorem C8_out_of_range (db : Db) (q : String) (page : Int)
    (h : page < 1 ∨ ((fetchInvoicesPages db none q).1 : Int) < page) :
    (fetchFilteredInvoices db none q page).1 = [] := by
  by_cases hoff : (page - 1) * 6 < 0
  · simp [fetchFilteredInvoices, hoff]
  · have hpg : ((fetchInvoicesPages db none q).1 : Int) < page := by
      rcases h with h | h
      · exfalso; apply hoff; omega
      · exact h
    have hpr : pageRows db q page = [] := by
      have hlen : (sortedMatches db q).length ≤ ((page - 1) * 6).toNat := by
        rw [sortedMatches_length]
        have h6 : (pagesMatches db q).length ≤ 6 * (fetchInvoicesPages db none q).1 := by
          rw [fetchInvoicesPages_none]; omega
        omega
      simp [pageRows, List.drop_eq_nil_of_le hlen]
    simp [fetchFilteredInvoices, hoff, hpr]

/-- C8 witness: page 99 of a one-customer, two-invoice database with the
match-everything empty query is empty. -/
theorem C8_out_of_range_witness :
    ((99 : Int) < 1 ∨ ((fetchInvoicesPages sampleDb none "").1 : Int) < 99) ∧
    (fetchFilteredInvoices sampleDb none "" 99).1 = [] :=
  ⟨Or.inr (by decide), C8_out_of_range sampleDb "" 99 (Or.inr (by decide))⟩

/-- C9: `fetchInvoiceById` returns the stored row with its amount divided
by 100 (minor to major units) when a row with the requested id exists,
and the not-found value `none` when no row matches. -/
theorem C9_invoiceById (db : Db) (id : String) :
    (∀ r : Invoice, (db.invoices.filter (fun i => i.id == id)).head? = some r →
        (fetchInvoiceById db none id).1 =
          some ⟨r.id, r.customer_id, (r.amount : ℚ) / 100, r.status⟩) ∧
    ((db.invoices.filter (fun i => i.id == id)).head? = none →
        (fetchInvoiceById db none id).1 = none) := by
  constructor
  · intro r hr
    simp [fetchInvoiceById, hr, invoiceFormRow]
  · intro hr
    simp [fetchInvoiceById, hr]

/-- C9 witness: the sample invoice stores amount 100000 and is returned
with form amount 1000, the spec's example. -/
theorem C9_invoiceById_witness :
    ((sampleDb.invoices.filter (fun i => i.id == "inv1")).head? = some sampleInvoice) ∧
    (fetchInvoiceById sampleDb none "inv1").1 =
      some ⟨"inv1", "c1", (1000 : ℚ), "paid"⟩ :=
  ⟨by decide, by
    have h := (C9_invoiceById sampleDb "inv1").1 sampleInvoice (by decide)
    rw [h]
    norm_num [sampleInvoice]⟩

/-- C10, counterexample: with the query `"%"` (an `ILIKE` wildcard) the
sample customer appears in the `fetchFilteredCustomers` result although
`%` is not a case-insensitive substring of either their name or their
email, refuting the claimed "if and only if substring" membership
condition. -/
theorem C10_counterexample :
    ((fetchFilteredCustomers ⟨[], [⟨"c9", "Al", "al@x.com", "/a.png"⟩], []⟩ none "%").1.map
        (fun r => r.id)) = ["c9"] ∧
    containsCI "%".data "Al".data = false ∧
    containsCI "%".data "al@x.com".data = false := by
  refine ⟨?_, by decide, by decide⟩
  have hf : (⟨[], [⟨"c9", "Al", "al@x.com", "/a.png"⟩], []⟩ : Db).customers.filter
      (customerWhere "%") = [⟨"c9", "Al", "al@x.com", "/a.png"⟩] := by decide
  simp [fetchFilteredCustomers, hf, List.mergeSort_singleton, customersTableRow]

/-- C10, amended: membership in the `fetchFilteredCustomers` result
depends only on the customer's name and email — replacing the invoices
table arbitrarily never changes which customers appear — and a customer
matches exactly when the `ILIKE` pattern `%q%` accepts the name or the
email, which for wildcard-free queries is precisely the case-insensitive
substring condition. -/
theorem C10_amended (db : Db) (invs : List Invoice) (q : String) :
    ((fetchFilteredCustomers { db with invoices := invs } none q).1.map
        (fun r => (r.id, r.name, r.email))) =
      ((fetchFilteredCustomers db none q).1.map (fun r => (r.id, r.name, r.email))) ∧
    (∀ c : Customer, noWildcards q = true →
      customerWhere q c =
        (containsCI q.data c.name.data || containsCI q.data c.email.data)) := by
  constructor
  · simp only [fetchFilteredCustomers, List.map_map]
    rfl
  · intro c h
    simp only [customerWhere, ilike_eq_containsCI h]

/-- C10 witness: the wildcard-free query `"al"` matches the sample
customer by name and email exactly as the substring condition does. -/
theorem C10_amended_witness :
    noWildcards "al" = true ∧
    customerWhere "al" sampleCustomer =
      (containsCI "al".data sampleCustomer.name.data ||
        containsCI "al".data sampleCustomer.email.data) :=
  ⟨by decide, (C10_amended ⟨[], [], []⟩ [] "al").2 sampleCustomer (by decide)⟩
